import Mathlib

/-!
Verification of the null-hypothesis distribution estimator of
`mvpa/clfs/stats.py` (PyMVPA): the nonparametric CDF, the p-value helper
`_pvalue`, the `NullDist` / `MCNullDist` / `FixedNullDist` classes, and the
distribution-search routine `matchDistribution`.

Numeric values (numpy floats) are modelled as rationals `ℚ`; all the
operations the claims concern (comparison, subtraction from one, division,
averaging) are exact on `ℚ`.  A numpy value that is either a scalar or a 1-d
array is modelled by the inductive `NumValue`.  Python exceptions are modelled
by `Except PyError`.
-/

namespace PyMVPA

/-- Python exceptions relevant to `stats.py`: `ValueError` and `RuntimeError`,
each carrying a message. -/
inductive PyError : Type where
  | valueError (msg : String) : PyError
  | runtimeError (msg : String) : PyError
deriving DecidableEq, Repr

/-- A numpy input that is either a scalar (`N.isscalar x` true) or a 1-d
array of values (the code flattens all arrays with `ravel`/`reshape((-1,))`,
so 1-d lists suffice). -/
inductive NumValue : Type where
  | scalar (v : ℚ) : NumValue
  | array (vs : List ℚ) : NumValue
deriving DecidableEq, Repr

/-- The flattened 1-d view of a value: `N.asanyarray(x).reshape((-1,))`
after the scalar was wrapped as `[x]`. -/
def NumValue.toRow : NumValue → List ℚ
  | .scalar v => [v]
  | .array vs => vs

/-- Number of elements of a value (a scalar counts as one element). -/
def NumValue.numElems : NumValue → ℕ
  | .scalar _ => 1
  | .array vs => vs.length

/-- Arithmetic mean of a list, `ndarray.mean()`: sum divided by length
(division by zero yields `0` in `ℚ`; the empty case is outside every claim's
hypotheses). -/
def listMean (l : List ℚ) : ℚ := l.sum / l.length

/-- Numeric value of a boolean array element (`True` counts as `1.0`). -/
def boolToQ (b : Bool) : ℚ := if b then 1 else 0

/-- `Nonparametric.cdf` for a single query value `v`, from
`(self._dist_samples <= v).mean()`: the mean of the boolean indicator array
of samples that are `<= v`. -/
def Nonparametric.cdf (dist_samples : List ℚ) (v : ℚ) : ℚ :=
  listMean (dist_samples.map (fun s => boolToQ (decide (s ≤ v))))

/-- `Nonparametric.cdf` applied to an array argument: `N.vectorize` maps the
scalar cdf over the elements of `x`. -/
def Nonparametric.cdfList (dist_samples : List ℚ) (x : List ℚ) : List ℚ :=
  x.map (Nonparametric.cdf dist_samples)

/-- The transformation `_pvalue` applies to one cdf value, by tail:
`'left'` leaves it, `'right'` replaces it by `1 - cdf`, `'any'` replaces it
by `1 - cdf` exactly on the mask `cdf >= 0.5`; any other string falls through
all branches and leaves the value unchanged (construction of a `NullDist`
rules that case out). -/
def tailTransform (tail : String) (c : ℚ) : ℚ :=
  if tail = "left" then c
  else if tail = "right" then 1 - c
  else if tail = "any" then (if (1 : ℚ)/2 ≤ c then 1 - c else c)
  else c

/-- The whole-array tail transformation of `_pvalue` (`cdf = 1 - cdf` and the
masked assignment `cdf[right_tail] = 1.0 - cdf[right_tail]` act
elementwise). -/
def pvalueTransform (tail : String) (cdf : List ℚ) : List ℚ :=
  cdf.map (tailTransform tail)

/-- `_pvalue(x, cdf_func, tail)`: wraps a scalar `x` as `[x]`, applies
`cdf_func`, applies the tail transformation, and for a scalar input returns
element `cdf[0]` (`none` models the `IndexError` were `cdf_func` to return an
empty array there). -/
def pvalue (x : NumValue) (cdf_func : List ℚ → List ℚ) (tail : String) :
    Option NumValue :=
  match x with
  | .scalar v => ((pvalueTransform tail (cdf_func [v]))[0]?).map NumValue.scalar
  | .array vs => some (.array (pvalueTransform tail (cdf_func vs)))

/-- The accepted values of the `tail` argument of `NullDist.__init__`. -/
def knownTails : List String := ["left", "right", "any"]

/-- The state of a constructed `NullDist`: the stored `_tail`. -/
structure NullDist : Type where
  tail : String
deriving DecidableEq, Repr

/-- `NullDist.__init__(tail)`: stores the tail and raises `ValueError` when
`tail` is not one of `'left'`, `'right'`, `'any'`. -/
def NullDist.init (tail : String) : Except PyError NullDist :=
  if knownTails.contains tail then .ok ⟨tail⟩
  else .error (.valueError ("Unknown value \"" ++ tail ++ "\" to tail argument."))

/-- `NullDist.p(x)`: delegates to `_pvalue(x, self.cdf, self._tail)`.  The
instance's `cdf` method is passed in as `cdf_func`. -/
def NullDist.p (nd : NullDist) (cdf_func : List ℚ → List ℚ) (x : NumValue) :
    Option NumValue :=
  pvalue x cdf_func nd.tail

/-- Modelled from the spec: `Dataset` and its `permuteLabels` method live in
the dataset container module, which is not among the sources; per the spec the
sampler "repeatedly perturbs input labels" and `MCNullDist.fit` ends with a
restoring `permuteLabels(False)` call.  A dataset is its current labels plus
the originals stashed while a permutation is active:
`permuteLabels(True)` stashes the original labels (if not already stashed) and
installs the supplied rearrangement `newLabels`; `permuteLabels(False)`
restores the stashed originals and clears the stash. -/
structure Dataset : Type where
  labels : List ℚ
  origLabels : Option (List ℚ)
deriving DecidableEq, Repr

/-- Modelled from the spec: see `Dataset`.  `newLabels` stands for the random
rearrangement drawn when `status` is true; it is ignored when `status` is
false. -/
def Dataset.permuteLabels (d : Dataset) (status : Bool) (newLabels : List ℚ) :
    Dataset :=
  if status then
    { labels := newLabels, origLabels := some (d.origLabels.getD d.labels) }
  else
    { labels := d.origLabels.getD d.labels, origLabels := none }

/-- The labels that `permuteLabels(False)` would restore: the stashed
originals, or the current labels when no permutation is active. -/
def restoredLabels (d : Dataset) : List ℚ := d.origLabels.getD d.labels

/-- A distribution class usable by `MCNullDist`: anything that can estimate
parameters from samples with `fit()` and report `cdf(x)`.  `fitMk samples`
models `dist_class(*dist_class.fit(samples))`, the estimation composed with
the construction of the fitted instance (of state type `δ`). -/
structure DistClass (δ : Type) : Type where
  fitMk : List ℚ → δ
  cdf : δ → ℚ → ℚ

/-- The default `dist_class=Nonparametric`: `Nonparametric.fit(samples)`
returns `[samples]` and `Nonparametric(samples)` stores `ravel(samples)`,
so the fitted state is the sample list itself. -/
def Nonparametric.distClass : DistClass (List ℚ) :=
  ⟨fun samples => samples, Nonparametric.cdf⟩

/-- The state of an `MCNullDist` instance: the `NullDist` part (`_tail`), the
`_dist_class`, the number of `permutations`, the fitted `_dist` list (`none`
models the Python `None` that `cdf` guards against; `__init__` sets `[]`),
and the `dist_samples` state variable. -/
structure MCNullDist (δ : Type) : Type where
  tail : String
  distClass : DistClass δ
  permutations : ℕ
  dist : Option (List δ)
  dist_samples : List NumValue

/-- `MCNullDist.__init__(dist_class, permutations, tail)`: calls
`NullDist.__init__` (which validates `tail`), then sets `_dist = []` and
stores the permutation count. -/
def MCNullDist.init (δ : Type) (dc : DistClass δ) (permutations : ℕ)
    (tail : String) : Except PyError (MCNullDist δ) :=
  (NullDist.init tail).map
    (fun nd => ⟨nd.tail, dc, permutations, some [], []⟩)

/-- The permutation loop of `MCNullDist.fit`:
`for p in xrange(permutations): wdata.permuteLabels(True); dist_samples.append(measure(wdata))`.
`n` counts the remaining cycles, `p` is the current index, `perms p` the
labels that cycle's random permutation installs, and `acc` the samples
recorded so far. -/
def fitLoop (measure : Dataset → NumValue) (perms : ℕ → List ℚ) :
    ℕ → ℕ → Dataset → List NumValue → Dataset × List NumValue
  | 0, _, d, acc => (d, acc)
  | n + 1, p, d, acc =>
      let d' := d.permuteLabels true (perms p)
      fitLoop measure perms n (p + 1) d' (acc ++ [measure d'])

/-- The per-element fitting step of `MCNullDist.fit`: the recorded samples
are stacked into an array of shape `(permutations, ...)`; a 1-d stack of
scalars gets an artificial second axis (`dist_samples[:, N.newaxis]`), any
further axes are flattened by `reshape((shape[0], -1))`, and one distribution
is fit per column (`for samples in dist_samples_rs.T`).  `rows` are the
flattened per-cycle measurements; numpy's stacking requires them all to have
the same length, read off the first row. -/
def fitColumns (samples : List NumValue) : List (List ℚ) :=
  let rows := samples.map NumValue.toRow
  let ncols := (rows.headD []).length
  (List.range ncols).map (fun j => rows.map (fun r => r.getD j 0))

/-- `MCNullDist.fit(measure, wdata)`: runs the permutation loop, restores the
original labels with `wdata.permuteLabels(False)`, stores the recorded
samples in the `dist_samples` state, and fits one `_dist_class` instance per
element of the measure's output.  Returns the updated instance state together
with the dataset as the loop left it (`wdata` is mutated in place in
Python). -/
def MCNullDist.fit {δ : Type} (st : MCNullDist δ) (measure : Dataset → NumValue)
    (wdata : Dataset) (perms : ℕ → List ℚ) : MCNullDist δ × Dataset :=
  let res := fitLoop measure perms st.permutations 0 wdata []
  let d2 := res.1.permuteLabels false []
  let dist := (fitColumns res.2).map st.distClass.fitMk
  ({ st with dist := some dist, dist_samples := res.2 }, d2)

/-- `MCNullDist.cdf(x)`: raises `RuntimeError` if `_dist` is `None`; wraps a
scalar `x` as `[x]` and flattens; raises `ValueError` when the number of
fitted distributions differs from the number of elements of `x`; otherwise
returns the array of per-element cdf values. -/
def MCNullDist.cdf {δ : Type} (st : MCNullDist δ) (x : NumValue) :
    Except PyError (List ℚ) :=
  match st.dist with
  | none => .error (.runtimeError "Distribution has to be fit first")
  | some dists =>
      if dists.length ≠ x.toRow.length then
        .error (.valueError
          "Distribution was fit for structure with another number of elements than queried")
      else
        .ok ((x.toRow.zip dists).map (fun p => st.distClass.cdf p.2 p.1))

/-- The state of a `FixedNullDist` instance: the `NullDist` part plus the
wrapped distribution object (anything with a `cdf`, modelled as the
elementwise cdf function it exposes). -/
structure FixedNullDist : Type where
  tail : String
  cdf : ℚ → ℚ

/-- `FixedNullDist.__init__(dist, tail)`: calls `NullDist.__init__` (which
validates `tail`) and stores the distribution object. -/
def FixedNullDist.init (dist : ℚ → ℚ) (tail : String) :
    Except PyError FixedNullDist :=
  (NullDist.init tail).map (fun nd => ⟨nd.tail, dist⟩)

/-- Outcome of fitting one candidate distribution and scoring it
(`dist_gen.fit(data)` followed by the goodness-of-fit test): the distance
`D`, the test p-value `p`, and whether `D` came out as numpy `NaN`
(`N.isnan(D)`; `NaN` has no rational representative, so it is carried as a
flag). -/
structure TestOutcome : Type where
  D : ℚ
  p : ℚ
  Dnan : Bool
deriving DecidableEq, Repr

/-- `matchDistribution`'s candidate loop.  `runTest d` models
the body of the `try` block for candidate `d` — scipy's parameter fitting and
hypothesis test, external library calls abstracted as an oracle — with `none`
standing for any exception raised there (the bare `except` then `continue`s).
A surviving candidate contributes its `(D, name)` pair to `results` only when
`p > p_thr and not N.isnan(D)`. -/
def matchResults (runTest : String → Option TestOutcome) (p_thr : ℚ)
    (distributions : List String) : List (ℚ × String) :=
  distributions.filterMap (fun d =>
    match runTest d with
    | none => none
    | some r => if p_thr < r.p ∧ r.Dnan = false then some (r.D, d) else none)

/-- The value `matchDistribution` returns: the accumulated `results` after
the final `results.sort()` (Python sorts the `(D, d, dist_params)` tuples
lexicographically, the distance `D` being the first, dominant component; the
fitted `dist_params` play no role in the claims and are omitted from the
pairs). -/
def matchDistribution (runTest : String → Option TestOutcome) (p_thr : ℚ)
    (distributions : List String) : List (ℚ × String) :=
  (matchResults runTest p_thr distributions).insertionSort (fun a b => a.1 ≤ b.1)

instance : IsTotal (ℚ × String) (fun a b => a.1 ≤ b.1) :=
  ⟨fun a b => le_total a.1 b.1⟩

instance : IsTrans (ℚ × String) (fun a b => a.1 ≤ b.1) :=
  ⟨fun _ _ _ h1 h2 => le_trans h1 h2⟩

/-! ### Helper lemmas -/

theorem sum_boolToQ (p : ℚ → Bool) : ∀ s : List ℚ,
    (s.map (fun u => boolToQ (p u))).sum = ((s.filter p).length : ℚ)
  | [] => by simp
  | a :: s => by
    have ih := sum_boolToQ p s
    rw [List.map_cons, List.sum_cons, ih, List.filter_cons]
    by_cases h : p a
    · simp only [h, if_true, boolToQ, List.length_cons]
      push_cast; ring
    · simp [h, boolToQ]

theorem nonparametric_cdf_eq (s : List ℚ) (v : ℚ) :
    Nonparametric.cdf s v =
      ((s.filter (fun u => u ≤ v)).length : ℚ) / (s.length : ℚ) := by
  simp only [Nonparametric.cdf, listMean, sum_boolToQ, List.length_map]

theorem tailTransform_left : tailTransform "left" = fun c => c := by
  funext c; simp [tailTransform]

theorem tailTransform_right : tailTransform "right" = fun c => 1 - c := by
  funext c; simp [tailTransform]

theorem tailTransform_any : tailTransform "any" = fun c => min c (1 - c) := by
  funext c
  have e : tailTransform "any" c = if (1 : ℚ)/2 ≤ c then 1 - c else c := by
    simp [tailTransform]
  rw [e]
  split_ifs with h
  · rw [min_eq_right (by linarith)]
  · rw [min_eq_left (by linarith)]

/-! ### C2: the nonparametric empirical CDF -/

/-- C2: for every non-empty stored sample list `s` and every value `x`,
`Nonparametric(s).cdf(x)` equals the number of elements of `s` that are
`<= x` divided by the total number of elements of `s`, and this is applied
elementwise when the query is an array. -/
theorem C2_nonparametric_cdf_empirical (s : List ℚ) (hs : s ≠ []) (x : ℚ)
    (xs : List ℚ) :
    Nonparametric.cdf s x =
      ((s.filter (fun u => u ≤ x)).length : ℚ) / (s.length : ℚ) ∧
    Nonparametric.cdfList s xs =
      xs.map (fun v =>
        ((s.filter (fun u => u ≤ v)).length : ℚ) / (s.length : ℚ)) := by
  refine ⟨nonparametric_cdf_eq s x, ?_⟩
  simp only [Nonparametric.cdfList]
  exact List.map_congr_left (fun v _ => nonparametric_cdf_eq s v)

/-- Witness for C2 at `s = [1, 2, 4]`, `x = 2`, `xs = [0, 3]`. -/
theorem C2_nonparametric_cdf_empirical_witness :
    Nonparametric.cdf [1, 2, 4] 2 =
      (([1, 2, 4].filter (fun u => u ≤ (2 : ℚ))).length : ℚ) /
        (([1, 2, 4] : List ℚ).length : ℚ) ∧
    Nonparametric.cdfList [1, 2, 4] [0, 3] =
      [0, 3].map (fun v =>
        (([1, 2, 4].filter (fun u => u ≤ v)).length : ℚ) /
          (([1, 2, 4] : List ℚ).length : ℚ)) :=
  C2_nonparametric_cdf_empirical [1, 2, 4] (by decide) 2 [0, 3]

/-! ### C1: the tail selection of the p-value translator -/

/-- C1: `NullDist.p` (via `_pvalue`) reports the chosen tail of the
distribution: an instance constructed with `tail='left'` returns `cdf(x)`,
with `tail='right'` returns `1 - cdf(x)`, and with `tail='any'` returns
`min(cdf(x), 1 - cdf(x))`, elementwise, for cdf values lying in `[0, 1]`. -/
theorem C1_nulldist_p_tail (cdf_func : List ℚ → List ℚ) (xs : List ℚ)
    (ndL ndR ndA : NullDist)
    (hL : NullDist.init "left" = .ok ndL)
    (hR : NullDist.init "right" = .ok ndR)
    (hA : NullDist.init "any" = .ok ndA)
    (hcdf : ∀ c ∈ cdf_func xs, 0 ≤ c ∧ c ≤ 1) :
    ndL.p cdf_func (.array xs) = some (.array (cdf_func xs)) ∧
    ndR.p cdf_func (.array xs) =
      some (.array ((cdf_func xs).map (fun c => 1 - c))) ∧
    ndA.p cdf_func (.array xs) =
      some (.array ((cdf_func xs).map (fun c => min c (1 - c)))) := by
  have eL : NullDist.init "left" = Except.ok ⟨"left"⟩ := rfl
  have eR : NullDist.init "right" = Except.ok ⟨"right"⟩ := rfl
  have eA : NullDist.init "any" = Except.ok ⟨"any"⟩ := rfl
  rw [eL] at hL; rw [eR] at hR; rw [eA] at hA
  injection hL with hL; injection hR with hR; injection hA with hA
  subst hL; subst hR; subst hA
  refine ⟨?_, ?_, ?_⟩ <;>
    simp [NullDist.p, pvalue, pvalueTransform, tailTransform_left,
      tailTransform_right, tailTransform_any]

/-- Witness for C1 at `cdf_func` constantly `[3/4]` and `xs = [10]`. -/
theorem C1_nulldist_p_tail_witness :
    NullDist.p ⟨"left"⟩ (fun _ => [3/4]) (.array [10]) =
      some (.array [3/4]) ∧
    NullDist.p ⟨"right"⟩ (fun _ => [3/4]) (.array [10]) =
      some (.array [1/4]) ∧
    NullDist.p ⟨"any"⟩ (fun _ => [3/4]) (.array [10]) =
      some (.array [1/4]) := by
  have h := C1_nulldist_p_tail (fun _ => [3/4]) [10] ⟨"left"⟩ ⟨"right"⟩ ⟨"any"⟩
    rfl rfl rfl
    (by intro c hc; simp only [List.mem_singleton] at hc; subst hc;
        constructor <;> norm_num)
  obtain ⟨h1, h2, h3⟩ := h
  refine ⟨h1, ?_, ?_⟩
  · rw [h2]; norm_num
  · rw [h3]; norm_num [min_def]

/-! ### C10: shape preservation of the p-value translator -/

/-- C10: `NullDist.p` (via `_pvalue`) preserves the shape of its input: for a
scalar `x` it returns a single scalar, and for an array it returns an array
with one p-value per element of `x`, in the same order (stated for an
elementwise cdf, which every distribution here provides). -/
theorem C10_nulldist_p_shape (nd : NullDist) (g : ℚ → ℚ) (v : ℚ)
    (xs : List ℚ) :
    nd.p (fun l => l.map g) (.scalar v) =
      some (.scalar (tailTransform nd.tail (g v))) ∧
    nd.p (fun l => l.map g) (.array xs) =
      some (.array (xs.map (fun u => tailTransform nd.tail (g u)))) := by
  constructor <;> simp [NullDist.p, pvalue, pvalueTransform]

/-! ### C6: tail validation at construction -/

/-- C6: constructing a `NullDist` (including `MCNullDist` and
`FixedNullDist`, whose constructors call `NullDist.__init__`) succeeds for
exactly the tails `'left'`, `'right'`, `'any'`, and raises `ValueError` for
every other tail string. -/
theorem C6_tail_validation (tail : String) (dist : ℚ → ℚ)
    (dc : DistClass (List ℚ)) (n : ℕ) :
    ((∃ nd, NullDist.init tail = .ok nd) ↔ tail ∈ knownTails) ∧
    ((∃ st, MCNullDist.init (List ℚ) dc n tail = .ok st) ↔ tail ∈ knownTails) ∧
    ((∃ fd, FixedNullDist.init dist tail = .ok fd) ↔ tail ∈ knownTails) ∧
    (tail ∉ knownTails → ∃ m,
      NullDist.init tail = .error (.valueError m) ∧
      MCNullDist.init (List ℚ) dc n tail = .error (.valueError m) ∧
      FixedNullDist.init dist tail = .error (.valueError m)) := by
  by_cases h : tail ∈ knownTails
  · refine ⟨⟨fun _ => h, fun _ => ⟨⟨tail⟩, by simp [NullDist.init, h]⟩⟩,
      ⟨fun _ => h, fun _ => ⟨⟨tail, dc, n, some [], []⟩,
        by simp [MCNullDist.init, NullDist.init, h, Except.map]⟩⟩,
      ⟨fun _ => h, fun _ => ⟨⟨tail, dist⟩,
        by simp [FixedNullDist.init, NullDist.init, h, Except.map]⟩⟩,
      fun hn => absurd h hn⟩
  · have he : NullDist.init tail =
        .error (.valueError
          ("Unknown value \"" ++ tail ++ "\" to tail argument.")) := by
      simp [NullDist.init, h]
    refine ⟨⟨fun hex => ?_, fun hm => absurd hm h⟩,
      ⟨fun hex => ?_, fun hm => absurd hm h⟩,
      ⟨fun hex => ?_, fun hm => absurd hm h⟩,
      fun _ => ⟨_, he, by simp [MCNullDist.init, he, Except.map],
        by simp [FixedNullDist.init, he, Except.map]⟩⟩
    · obtain ⟨nd, hnd⟩ := hex
      rw [he] at hnd; exact absurd hnd (by simp)
    · obtain ⟨st, hst⟩ := hex
      rw [MCNullDist.init, he] at hst; exact absurd hst (by simp [Except.map])
    · obtain ⟨fd, hfd⟩ := hex
      rw [FixedNullDist.init, he] at hfd; exact absurd hfd (by simp [Except.map])

/-! ### C4: querying an unfit distribution -/

/-- C4: for every `MCNullDist` instance fresh from the constructor (on which
`fit` was never called, so `_dist` is the empty list `__init__` installed),
`cdf(x)` raises `ValueError` for every scalar and every non-empty array
`x`. -/
theorem C4_unfit_cdf_valueerror {δ : Type} (dc : DistClass δ) (n : ℕ)
    (tail : String) (st : MCNullDist δ)
    (hinit : MCNullDist.init δ dc n tail = .ok st)
    (x : NumValue) (hx : x.toRow ≠ []) :
    ∃ m, st.cdf x = .error (.valueError m) := by
  have hdist : st.dist = some [] := by
    rw [MCNullDist.init] at hinit
    cases he : NullDist.init tail with
    | ok nd => rw [he] at hinit; injection hinit with h2; rw [← h2]
    | error e => rw [he] at hinit; exact absurd hinit (by simp [Except.map])
  have hlen : x.toRow.length ≠ 0 := by
    intro h0
    exact hx (List.eq_nil_of_length_eq_zero h0)
  refine ⟨"Distribution was fit for structure with another number of elements than queried", ?_⟩
  simp only [MCNullDist.cdf, hdist, List.length_nil]
  rw [if_pos (fun he => hlen he.symm)]

/-- Witness for C4: the freshly constructed default instance queried at the
scalar `0`. -/
theorem C4_unfit_cdf_valueerror_witness :
    ∃ m, MCNullDist.cdf
      (⟨"left", Nonparametric.distClass, 100, some [], []⟩ :
        MCNullDist (List ℚ)) (.scalar 0) = .error (.valueError m) :=
  C4_unfit_cdf_valueerror Nonparametric.distClass 100 "left" _ rfl
    (.scalar 0) (by simp [NumValue.toRow])

/-! ### C5: length agreement between query and fitted distributions -/

/-- C5: once `_dist` holds `k` per-element distributions, `cdf(x)` raises
`ValueError` exactly when the number of elements of `x` (a scalar counting
as one) differs from `k`, and otherwise returns an array of `k` cdf
values. -/
theorem C5_fitted_cdf_length {δ : Type} (st : MCNullDist δ) (dists : List δ)
    (k : ℕ) (hd : st.dist = some dists) (hk : dists.length = k)
    (x : NumValue) :
    ((∃ m, st.cdf x = .error (.valueError m)) ↔ x.numElems ≠ k) ∧
    (x.numElems = k → ∃ l, st.cdf x = .ok l ∧ l.length = k) := by
  have hrow : x.toRow.length = x.numElems := by
    cases x <;> simp [NumValue.toRow, NumValue.numElems]
  have hcdf : st.cdf x =
      if dists.length ≠ x.toRow.length then
        .error (.valueError
          "Distribution was fit for structure with another number of elements than queried")
      else
        .ok ((x.toRow.zip dists).map (fun p => st.distClass.cdf p.2 p.1)) := by
    simp only [MCNullDist.cdf, hd]
  rw [hcdf, hk, hrow]
  constructor
  · constructor
    · rintro ⟨m, hm⟩ hne
      rw [if_neg (fun hc => hc hne.symm)] at hm
      exact absurd hm (by simp)
    · intro hne
      exact ⟨_, by rw [if_pos (fun hc => hne hc.symm)]⟩
  · intro heq
    refine ⟨_, by rw [if_neg (fun hc => hc heq.symm)], ?_⟩
    rw [List.length_map, List.length_zip, hrow, heq, hk, min_self]

/-- Witness for C5: an instance fitted with two nonparametric distributions,
queried with a mismatched scalar and with a matching two-element array. -/
theorem C5_fitted_cdf_length_witness :
    ((∃ m, MCNullDist.cdf
        (⟨"left", Nonparametric.distClass, 2, some [[1, 2], [3, 4]], []⟩ :
          MCNullDist (List ℚ)) (.scalar 0) = .error (.valueError m)) ↔
      (NumValue.scalar 0).numElems ≠ 2) ∧
    ((NumValue.array [0, 10]).numElems = 2 → ∃ l, MCNullDist.cdf
        (⟨"left", Nonparametric.distClass, 2, some [[1, 2], [3, 4]], []⟩ :
          MCNullDist (List ℚ)) (.array [0, 10]) = .ok l ∧ l.length = 2) :=
  ⟨(C5_fitted_cdf_length _ [[1, 2], [3, 4]] 2 rfl rfl (.scalar 0)).1,
   (C5_fitted_cdf_length _ [[1, 2], [3, 4]] 2 rfl rfl (.array [0, 10])).2⟩

/-! ### The permutation loop of `MCNullDist.fit` -/

theorem restoredLabels_permuteLabels_true (d : Dataset) (l : List ℚ) :
    restoredLabels (d.permuteLabels true l) = restoredLabels d := by
  simp [restoredLabels, Dataset.permuteLabels]

theorem permuteLabels_true_eq (d : Dataset) (l : List ℚ) :
    d.permuteLabels true l = ⟨l, some (restoredLabels d)⟩ := by
  simp [Dataset.permuteLabels, restoredLabels]

theorem fitLoop_fst (measure : Dataset → NumValue) (perms : ℕ → List ℚ) :
    ∀ (n p : ℕ) (d : Dataset) (acc : List NumValue),
      restoredLabels (fitLoop measure perms n p d acc).1 = restoredLabels d
  | 0, _, _, _ => rfl
  | n + 1, p, d, acc => by
    simp only [fitLoop]
    rw [fitLoop_fst measure perms n (p + 1) _ _]
    exact restoredLabels_permuteLabels_true d (perms p)

theorem fitLoop_snd (measure : Dataset → NumValue) (perms : ℕ → List ℚ) :
    ∀ (n p : ℕ) (d : Dataset) (acc : List NumValue),
      (fitLoop measure perms n p d acc).2 =
        acc ++ (List.range' p n).map
          (fun i => measure ⟨perms i, some (restoredLabels d)⟩)
  | 0, _, _, _ => by simp [fitLoop]
  | n + 1, p, d, acc => by
    simp only [fitLoop]
    rw [fitLoop_snd measure perms n (p + 1) _ _, permuteLabels_true_eq]
    simp only [restoredLabels, Option.getD_some]
    simp [List.range'_succ]

/-! ### C3: what a completed fit records -/

/-- C3: with a measure whose output has `k` elements, `MCNullDist.fit`
performs exactly `permutations` cycles — the `dist_samples` state afterwards
is the list of the `permutations` measurements, the `i`-th taken on the
dataset carrying the `i`-th cycle's permuted labels — and fits one
distribution per output element, so the internal `_dist` list has length `k`
(`k = 1` when the measure returns a scalar). -/
theorem C3_mcnull_fit_spec {δ : Type} (st : MCNullDist δ)
    (measure : Dataset → NumValue) (wdata : Dataset) (perms : ℕ → List ℚ)
    (k : ℕ) (hP : 0 < st.permutations)
    (hk : ∀ d, (measure d).numElems = k) :
    (st.fit measure wdata perms).1.dist_samples =
      (List.range st.permutations).map
        (fun i => measure ⟨perms i, some (restoredLabels wdata)⟩) ∧
    (st.fit measure wdata perms).1.dist_samples.length = st.permutations ∧
    (∃ dist, (st.fit measure wdata perms).1.dist = some dist ∧
      dist.length = k) := by
  have hrow : ∀ x : NumValue, x.toRow.length = x.numElems := by
    intro x; cases x <;> simp [NumValue.toRow, NumValue.numElems]
  have hsamples : (fitLoop measure perms st.permutations 0 wdata []).2 =
      (List.range st.permutations).map
        (fun i => measure ⟨perms i, some (restoredLabels wdata)⟩) := by
    rw [fitLoop_snd, List.range_eq_range', List.nil_append]
  refine ⟨?_, ?_, ?_⟩
  · exact hsamples
  · show (fitLoop measure perms st.permutations 0 wdata []).2.length =
      st.permutations
    rw [hsamples, List.length_map, List.length_range]
  · refine ⟨(fitColumns
        ((fitLoop measure perms st.permutations 0 wdata []).2)).map
      st.distClass.fitMk, rfl, ?_⟩
    obtain ⟨n, hn⟩ : ∃ n, st.permutations = n + 1 :=
      ⟨st.permutations - 1, by omega⟩
    rw [List.length_map, hsamples]
    simp only [fitColumns, List.length_map, List.length_range]
    rw [hn, List.range_eq_range', List.range'_succ, List.map_cons,
      List.map_cons, List.headD_cons, hrow, hk]

/-- Witness for C3: two permutations of a two-element featurewise measure. -/
theorem C3_mcnull_fit_spec_witness :
    ((⟨"left", Nonparametric.distClass, 2, some [], []⟩ :
        MCNullDist (List ℚ)).fit
      (fun d => .array [d.labels.sum, 1]) ⟨[5, 6], none⟩
      (fun _ => [6, 5])).1.dist_samples =
      (List.range 2).map (fun i =>
        NumValue.array [([6, 5] : List ℚ).sum, 1]) ∧
    ((⟨"left", Nonparametric.distClass, 2, some [], []⟩ :
        MCNullDist (List ℚ)).fit
      (fun d => .array [d.labels.sum, 1]) ⟨[5, 6], none⟩
      (fun _ => [6, 5])).1.dist_samples.length = 2 ∧
    (∃ dist, ((⟨"left", Nonparametric.distClass, 2, some [], []⟩ :
        MCNullDist (List ℚ)).fit
      (fun d => .array [d.labels.sum, 1]) ⟨[5, 6], none⟩
      (fun _ => [6, 5])).1.dist = some dist ∧ dist.length = 2) :=
  C3_mcnull_fit_spec _ (fun d => .array [d.labels.sum, 1]) ⟨[5, 6], none⟩
    (fun _ => [6, 5]) 2 (by norm_num)
    (fun d => by simp [NumValue.numElems])

/-! ### C9: fit restores the labels it permuted -/

/-- C9: `MCNullDist.fit` leaves the working dataset's labels as it found
them: the final `permuteLabels(False)` call restores them, so for a dataset
with no permutation already active the labels after `fit` equal the labels
before. -/
theorem C9_mcnull_fit_restores_labels {δ : Type} (st : MCNullDist δ)
    (measure : Dataset → NumValue) (wdata : Dataset) (perms : ℕ → List ℚ)
    (hfresh : wdata.origLabels = none) :
    (st.fit measure wdata perms).2.labels = wdata.labels := by
  simp only [MCNullDist.fit]
  have h1 : ((fitLoop measure perms st.permutations 0 wdata
      []).1.permuteLabels false []).labels =
      restoredLabels (fitLoop measure perms st.permutations 0 wdata []).1 := by
    simp [Dataset.permuteLabels, restoredLabels]
  rw [h1, fitLoop_fst, restoredLabels, hfresh, Option.getD_none]

/-- Witness for C9: a fresh two-sample dataset passed through a
three-permutation fit. -/
theorem C9_mcnull_fit_restores_labels_witness :
    ((⟨"left", Nonparametric.distClass, 3, some [], []⟩ :
        MCNullDist (List ℚ)).fit
      (fun d => .scalar d.labels.sum) ⟨[5, 6], none⟩
      (fun _ => [6, 5])).2.labels = [5, 6] :=
  C9_mcnull_fit_restores_labels _ (fun d => .scalar d.labels.sum)
    ⟨[5, 6], none⟩ (fun _ => [6, 5]) rfl

/-- Witness for C6: `'left'` is accepted, `'up'` is rejected by all three
constructors. -/
theorem C6_tail_validation_witness :
    (∃ nd, NullDist.init "left" = .ok nd) ∧
    (∃ m, NullDist.init "up" = .error (.valueError m) ∧
      MCNullDist.init (List ℚ) Nonparametric.distClass 100 "up" =
        .error (.valueError m) ∧
      FixedNullDist.init (fun c => c) "up" = .error (.valueError m)) :=
  ⟨(C6_tail_validation "left" (fun c => c) Nonparametric.distClass 100).1.mpr
      (by decide),
   (C6_tail_validation "up" (fun c => c) Nonparametric.distClass 100).2.2.2
      (by decide)⟩

/-! ### C7: exceptions during distribution search are skipped -/

/-- C7: a candidate whose parameter fitting or goodness-of-fit test raises
(`runTest` returns `none`) contributes no entry to the returned list, and
`matchDistribution` continues with the remaining candidates: the result is
the same as if the candidate had not been in the list at all. -/
theorem C7_matchdist_exception_skipped (runTest : String → Option TestOutcome)
    (p_thr : ℚ) (ds1 ds2 : List String) (d : String)
    (hexc : runTest d = none) :
    matchDistribution runTest p_thr (ds1 ++ d :: ds2) =
      matchDistribution runTest p_thr (ds1 ++ ds2) ∧
    ∀ r ∈ matchDistribution runTest p_thr (ds1 ++ d :: ds2), r.2 ≠ d := by
  constructor
  · simp only [matchDistribution, matchResults, List.filterMap_append,
      List.filterMap_cons, hexc]
  · intro r hr
    simp only [matchDistribution] at hr
    have hr2 : r ∈ matchResults runTest p_thr (ds1 ++ d :: ds2) :=
      (List.perm_insertionSort _ _).mem_iff.mp hr
    simp only [matchResults] at hr2
    obtain ⟨a, ha, hfa⟩ := List.mem_filterMap.mp hr2
    cases hta : runTest a with
    | none => rw [hta] at hfa; exact absurd hfa (by simp)
    | some t =>
        rw [hta] at hfa
        have hfa2 : (if p_thr < t.p ∧ t.Dnan = false then some (t.D, a)
            else none) = some r := hfa
        by_cases hc : p_thr < t.p ∧ t.Dnan = false
        · rw [if_pos hc] at hfa2
          injection hfa2 with hfa2
          intro hrd
          rw [← hfa2] at hrd
          simp only at hrd
          rw [hrd] at hta
          rw [hta] at hexc
          exact absurd hexc (by simp)
        · rw [if_neg hc] at hfa2
          exact absurd hfa2 (by simp)

/-- Witness for C7: a candidate list where the test of `'beta'` raises. -/
theorem C7_matchdist_exception_skipped_witness :
    matchDistribution
        (fun s => if s = "norm" then some ⟨1, 1, false⟩ else none) (1/2)
        (["norm"] ++ "beta" :: []) =
      matchDistribution
        (fun s => if s = "norm" then some ⟨1, 1, false⟩ else none) (1/2)
        (["norm"] ++ []) ∧
    ∀ r ∈ matchDistribution
        (fun s => if s = "norm" then some ⟨1, 1, false⟩ else none) (1/2)
        (["norm"] ++ "beta" :: []), r.2 ≠ "beta" :=
  C7_matchdist_exception_skipped
    (fun s => if s = "norm" then some ⟨1, 1, false⟩ else none) (1/2)
    ["norm"] [] "beta" (by simp)

/-! ### C8: the distribution search returns its results sorted -/

/-- C8: `matchDistribution` returns the scored candidates in ascending order
of the goodness-of-fit distance `D` (the first component), and the returned
list is a rearrangement of exactly the scored results of the candidate
loop — so the smallest-`D` candidate comes first. -/
theorem C8_matchdist_sorted (runTest : String → Option TestOutcome)
    (p_thr : ℚ) (distributions : List String) :
    (matchDistribution runTest p_thr distributions).Sorted
      (fun a b => a.1 ≤ b.1) ∧
    (matchDistribution runTest p_thr distributions).Perm
      (matchResults runTest p_thr distributions) :=
  ⟨List.sorted_insertionSort _ _, List.perm_insertionSort _ _⟩

end PyMVPA
